import Mathlib

/-!
Shallow embedding of `tools/harness-automation/parse_topofile.py`
(function `device_calculate` and the helpers it relies on).

The Python function reads a topology-config file line by line, classifies
each line (comment / case record / unrecognized), tallies vendor devices
per case with `collections.Counter`, folds the per-case tallies into a
test-bed-wide tally with a per-vendor `max`, and finally derives the
special vendor "Any" from `MAX_VENDOR_DEVICE = 32`.

Embedding decisions, each traceable to a source line:
* Python `dict`/`Counter` (insertion-ordered, `Counter.__getitem__` on a
  missing key returns 0 without inserting; assignment inserts at the end,
  assignment to a present key updates in place) is `List (String × Int)`
  with `Counter.get` / `Counter.set` / `Counter.memb` below.  Values are
  `Int` because the derived "Any" count can go negative.
* `re.match(r'(.*)-(.*)', line)` has greedy groups, so group 1 is
  everything before the LAST `-` and group 2 everything after it;
  `lastDashSplit` embeds exactly that.  When the line has no `-` the
  match object is `None` and the subsequent `.group(1)` call raises
  `AttributeError`, which the `except` block logs as
  `Unrecognized format: <line>` and re-raises.
* `re.match(r'\s*#.*', line)` succeeds iff after optional leading
  whitespace the next character is `#` (`isComment`).
* `re.split(',', s)` / `re.split(':', s)` on these one-character patterns
  behave as plain splits (`splitOnChar`), with `'' -> ['']`.
* `for _, vendor in role_vendor_list` sits OUTSIDE the `try`, so a tuple
  whose length is not 2 raises an un-logged `ValueError`:
  `tallyPairsGo` returns `none` there and `processLine` produces an
  error that carries only the log emitted so far (no `unrecognized`
  entry).
* `for line in f` never yields the empty string, but the source's
  `if not line: break` is still modelled in `runLines` for fidelity.
* Logged output is modelled structurally as `List LogEntry`; an aborted
  run is `Except.error log` carrying the log emitted before the raise
  (the exception escapes `device_calculate`, so no tally is returned).
-/

namespace ParseTopofile

/-- The constant `MAX_VENDOR_DEVICE = 32` from the source. -/
def MAX_VENDOR_DEVICE : Int := 32

/-- Characters Python's `str.strip()` and `\s` treat as whitespace
(ASCII fragment; topology files are ASCII). -/
def isPySpace (c : Char) : Bool :=
  c = ' ' || c = '\t' || c = '\n' || c = '\r' || c = '\x0b' || c = '\x0c'

/-- `line.strip()`. -/
def pyStrip (s : String) : String :=
  String.mk (((s.toList.dropWhile isPySpace).reverse.dropWhile isPySpace).reverse)

/-- `re.match(r'\s*#.*', line)` succeeds: optional leading whitespace then `#`. -/
def isComment (s : String) : Bool :=
  match s.toList.dropWhile isPySpace with
  | '#' :: _ => true
  | _ => false

/-- `re.match(r'(.*)-(.*)', line)`: both groups are greedy, so the split
happens at the LAST `-` of the line; `none` when the line has no `-`
(the match fails). -/
def lastDashSplit : List Char → Option (List Char × List Char)
  | [] => none
  | c :: rest =>
    match lastDashSplit rest with
    | some (a, b) => some (c :: a, b)
    | none => if c = '-' then some ([], rest) else none

/-- Modelled from the spec: the spec's §4.1 step 3 says the line is split
on the FIRST `-` into `(case_id, role_vendor_str)`.  This definition
follows the spec's words and exists only for comparison with the code's
`lastDashSplit`. -/
def firstDashSplit : List Char → Option (List Char × List Char)
  | [] => none
  | c :: rest =>
    if c = '-' then some ([], rest)
    else
      match firstDashSplit rest with
      | some (a, b) => some (c :: a, b)
      | none => none

/-- `re.split(sep, s)` for the one-character patterns `,` and `:`
used by the source (`'' -> ['']`). -/
def splitOnChar (sep : Char) : List Char → List (List Char)
  | [] => [[]]
  | c :: rest =>
    match splitOnChar sep rest with
    | h :: t => if c = sep then [] :: h :: t else (c :: h) :: t
    | [] => if c = sep then [[], []] else [[c]]

/-- A Python `Counter` / insertion-ordered `dict` from vendor names to
integer counts. -/
abbrev Dict := List (String × Int)

/-- `d[k]` on a `Counter`: the value of the first (unique) binding of `k`,
defaulting to 0 on a missing key (`Counter.__missing__`, no insertion). -/
def Counter.get (d : Dict) (k : String) : Int :=
  match d with
  | [] => 0
  | (k', v) :: rest => if k' = k then v else Counter.get rest k

/-- `d[k] = v`: update the binding of `k` in place if present
(insertion order kept), else append a new binding at the end. -/
def Counter.set (d : Dict) (k : String) (v : Int) : Dict :=
  match d with
  | [] => [(k, v)]
  | (k', v') :: rest => if k' = k then (k, v) :: rest else (k', v') :: Counter.set rest k v

/-- `k in d`. -/
def Counter.memb (d : Dict) (k : String) : Bool :=
  match d with
  | [] => false
  | (k', _) :: rest => k' = k || Counter.memb rest k

/-- One structured entry of the `logging.info` output stream of
`device_calculate`. -/
inductive LogEntry where
  /-- `logging.info('case %s:' % matched_case.group(1))` -/
  | caseHeader (caseId : String)
  /-- `logging.info('\trole-vendor pair: %s' % role_vendor_list)` -/
  | rolePairs (tuples : List (List String))
  /-- `logging.info('\tvendor devices  : %s' % dict(case_vendor_dict))` -/
  | caseVendors (d : Dict)
  /-- `logging.info('Unrecognized format: %s\n%s' % (line, format(e)))` -/
  | unrecognized (line : String)
  /-- `logging.info('Case %s not found' % str(case_list)[1:-1])` -/
  | notFound (cases : List String)
  /-- `logging.info('\nTestbed needed vendor devices:%s' % dict(testbed_vendor_dict))` -/
  | testbedResult (d : Dict)
deriving DecidableEq, Repr

/-- The loop `for _, vendor in role_vendor_list: case_vendor_dict[vendor] += 1;
testbed_vendor_dict[vendor] = max(testbed_vendor_dict[vendor], case_vendor_dict[vendor])`.
Unpacking a tuple whose length is not 2 raises `ValueError` (outside the
`try`), modelled by `none`. -/
def tallyPairsGo (caseD testD : Dict) : List (List String) → Option (Dict × Dict)
  | [] => some (caseD, testD)
  | tup :: rest =>
    match tup with
    | [_, vendor] =>
      -- `case_vendor_dict[vendor] += 1` stores `Counter.get caseD vendor + 1`,
      -- which is exactly the value the subsequent `max(...)` reads back.
      tallyPairsGo (Counter.set caseD vendor (Counter.get caseD vendor + 1))
        (Counter.set testD vendor
          (max (Counter.get testD vendor) (Counter.get caseD vendor + 1))) rest
    | _ => none

/-- The mutable state threaded through the `for line in f` loop:
the caller's `case_list` (mutated by `case_list.remove(...)`),
`testbed_vendor_dict`, and the log emitted so far. -/
structure St where
  caseList : List String
  testbed : Dict
  log : List LogEntry
deriving DecidableEq, Repr

/-- The state at `device_calculate` entry. -/
def initSt (caseList : List String) : St := ⟨caseList, [], []⟩

/-- One iteration of the `for line in f` loop body (after the
`if not line: break` test, which lives in `runLines`). -/
def processLine (st : St) (rawLine : String) : Except (List LogEntry) St :=
  let line := pyStrip rawLine
  if isComment line then .ok st
  else
    match lastDashSplit line.toList with
    | none =>
      -- matched_case is None: `.group(1)` raises AttributeError, the
      -- except block logs the line and re-raises.
      .error (st.log ++ [.unrecognized line])
    | some (g1, g2) =>
      let caseId := String.mk g1
      if "all" ∈ st.caseList ∨ caseId ∈ st.caseList then
        let log1 := st.log ++ [.caseHeader caseId]
        let caseList1 :=
          if "all" ∈ st.caseList then st.caseList else st.caseList.erase caseId
        let tuples := (splitOnChar ',' g2).map fun t => (splitOnChar ':' t).map String.mk
        let log2 := log1 ++ [.rolePairs tuples]
        match tallyPairsGo [] st.testbed tuples with
        | none =>
          -- ValueError while unpacking, outside the try: not logged.
          .error log2
        | some (caseD, testD) =>
          .ok ⟨caseList1, testD, log2 ++ [.caseVendors caseD]⟩
      else
        -- `'all' not in case_list and matched_case.group(1) not in case_list: continue`
        .ok st

/-- The `for line in f` loop, including `if not line: break`. -/
def runLines (st : St) : List String → Except (List LogEntry) St
  | [] => .ok st
  | l :: ls =>
    if l = "" then .ok st
    else
      match processLine st l with
      | .error e => .error e
      | .ok st' => runLines st' ls

/-- The finalization loop
`count_any = MAX_VENDOR_DEVICE; for key in testbed_vendor_dict: ...`,
threading `(count_any, dict, number of assignments to 'Any')`; the third
component counts how many times `testbed_vendor_dict['Any'] = count_any`
executes. -/
def countAnyStep (c : Int) (d : Dict) (k : String) : Int :=
  if k ≠ "Any" then c - Counter.get d k else c

def finalizeGo : Int × Dict × Nat → List String → Int × Dict × Nat
  | s, [] => s
  | (c, d, n), k :: ks =>
    if Counter.memb d "Any" then
      finalizeGo (countAnyStep c d k, Counter.set d "Any" (countAnyStep c d k), n + 1) ks
    else finalizeGo (countAnyStep c d k, d, n) ks

/-- The test-bed tally after the finalization loop. -/
def finalize (d : Dict) : Dict :=
  (finalizeGo (MAX_VENDOR_DEVICE, d, 0) (d.map Prod.fst)).2.1

/-- How many times the finalization loop assigns to `'Any'`. -/
def finalizeAssigns (d : Dict) : Nat :=
  (finalizeGo (MAX_VENDOR_DEVICE, d, 0) (d.map Prod.fst)).2.2

/-- The sum of the tally values of all vendors other than `'Any'`. -/
def sumNonAny (d : Dict) : Int :=
  ((d.filter fun p => p.1 ≠ "Any").map Prod.snd).sum

/-- `device_calculate(topo_file, case_list)`: the whole run over the
file's lines.  On success, the pair (full log, final test-bed tally);
on an uncaught exception, the log emitted before the raise. -/
def device_calculate (lines : List String) (caseList : List String) :
    Except (List LogEntry) (List LogEntry × Dict) :=
  match runLines (initSt caseList) lines with
  | .error e => .error e
  | .ok st =>
    let log1 :=
      if st.caseList ≠ [] ∧ "all" ∉ st.caseList then st.log ++ [.notFound st.caseList]
      else st.log
    let fin := finalize st.testbed
    .ok (log1 ++ [.testbedResult fin], fin)

/-- The case identifier the source extracts from a line (group 1 of the
greedy match), when the match succeeds. -/
def caseIdOf (l : String) : Option String :=
  (lastDashSplit (pyStrip l).toList).map fun p => String.mk p.1

/-- Whether the log contains an `Unrecognized format` message. -/
def hasUnrecognized (log : List LogEntry) : Bool :=
  log.any fun e => match e with | .unrecognized _ => true | _ => false

/-- A well-formed `(role, vendor)` pair list rendered as the raw tuples
`tallyPairsGo` consumes. -/
def pairsOf (ps : List (String × String)) : List (List String) :=
  ps.map fun p => [p.1, p.2]

/-- The inner tally loop specialized to well-formed two-element tuples
(total counterpart of `tallyPairsGo`). -/
def tallyGo (caseD testD : Dict) : List (String × String) → Dict × Dict
  | [] => (caseD, testD)
  | (_, vendor) :: rest =>
    tallyGo (Counter.set caseD vendor (Counter.get caseD vendor + 1))
      (Counter.set testD vendor
        (max (Counter.get testD vendor) (Counter.get caseD vendor + 1))) rest

/-- Folding a sequence of well-formed case records into the test-bed
tally, each with a fresh empty per-case tally, starting from the empty
test-bed tally. -/
def foldCases (cases : List (List (String × String))) : Dict :=
  cases.foldl (fun t ps => (tallyGo [] t ps).2) []

/-- The number of pairs of a case record whose vendor is `v`. -/
def countVendor (ps : List (String × String)) (v : String) : Nat :=
  (ps.filter fun p => p.2 = v).length

/-! ### Basic facts about the `Counter` embedding -/

theorem Counter.get_set_self (d : Dict) (k : String) (v : Int) :
    Counter.get (Counter.set d k v) k = v := by
  induction d with
  | nil => simp [Counter.set, Counter.get]
  | cons p rest ih =>
    obtain ⟨k', v'⟩ := p
    by_cases h : k' = k <;> simp [Counter.set, Counter.get, h, ih]

theorem Counter.get_set_ne (d : Dict) (k k' : String) (v : Int) (h : k' ≠ k) :
    Counter.get (Counter.set d k v) k' = Counter.get d k' := by
  induction d with
  | nil => simp [Counter.set, Counter.get, Ne.symm h]
  | cons p rest ih =>
    obtain ⟨k₀, v₀⟩ := p
    by_cases h0 : k₀ = k
    · subst h0
      simp [Counter.set, Counter.get, Ne.symm h]
    · simp [Counter.set, Counter.get, h0, ih]

theorem Counter.set_set (d : Dict) (k : String) (a b : Int) :
    Counter.set (Counter.set d k a) k b = Counter.set d k b := by
  induction d with
  | nil => simp [Counter.set]
  | cons p rest ih =>
    obtain ⟨k₀, v₀⟩ := p
    by_cases h0 : k₀ = k <;> simp [Counter.set, h0, ih]

theorem Counter.memb_set_self (d : Dict) (k : String) (v : Int) :
    Counter.memb (Counter.set d k v) k = true := by
  induction d with
  | nil => simp [Counter.set, Counter.memb]
  | cons p rest ih =>
    obtain ⟨k₀, v₀⟩ := p
    by_cases h0 : k₀ = k <;> simp [Counter.set, Counter.memb, h0, ih]

theorem Counter.memb_iff_mem_keys (d : Dict) (k : String) :
    Counter.memb d k = true ↔ k ∈ d.map Prod.fst := by
  induction d with
  | nil => simp [Counter.memb]
  | cons p rest ih =>
    obtain ⟨k₀, v₀⟩ := p
    simp only [Counter.memb, List.map_cons, List.mem_cons, Bool.or_eq_true,
      decide_eq_true_eq, ih]
    constructor
    · rintro (h | h)
      · exact Or.inl h.symm
      · exact Or.inr h
    · rintro (h | h)
      · exact Or.inl h.symm
      · exact Or.inr h

theorem Counter.get_cons_ne (k₀ k : String) (v₀ : Int) (d : Dict) (h : k ≠ k₀) :
    Counter.get ((k₀, v₀) :: d) k = Counter.get d k := by
  simp [Counter.get, Ne.symm h]

/-! ### Characterization of the greedy dash split -/

theorem lastDashSplit_eq_none_iff (cs : List Char) :
    lastDashSplit cs = none ↔ '-' ∉ cs := by
  induction cs with
  | nil => simp [lastDashSplit]
  | cons c rest ih =>
    cases hr : lastDashSplit rest with
    | some p =>
      obtain ⟨a, b⟩ := p
      have hmem : '-' ∈ rest := by
        by_contra hmem
        rw [ih.mpr hmem] at hr
        cases hr
      simp [lastDashSplit, hr, List.mem_cons, hmem]
    | none =>
      have hrest : '-' ∉ rest := ih.mp hr
      by_cases hc : c = '-'
      · simp [lastDashSplit, hr, hc]
      · simp [lastDashSplit, hr, hc, List.mem_cons, hrest, Ne.symm hc]

theorem lastDashSplit_eq_some_iff (cs a b : List Char) :
    lastDashSplit cs = some (a, b) ↔ cs = a ++ '-' :: b ∧ '-' ∉ b := by
  constructor
  · intro h
    induction cs generalizing a b with
    | nil => simp [lastDashSplit] at h
    | cons c rest ih =>
      cases hr : lastDashSplit rest with
      | some p =>
        obtain ⟨a', b'⟩ := p
        simp only [lastDashSplit, hr, Option.some.injEq, Prod.mk.injEq] at h
        obtain ⟨h1, h2⟩ := h
        subst h1
        subst h2
        obtain ⟨hr1, hr2⟩ := ih a' b' hr
        exact ⟨by rw [hr1]; rfl, hr2⟩
      | none =>
        by_cases hc : c = '-'
        · subst hc
          simp only [lastDashSplit, hr, if_true, Option.some.injEq, Prod.mk.injEq,
            reduceIte] at h
          obtain ⟨h1, h2⟩ := h
          subst h1
          subst h2
          exact ⟨by simp, (lastDashSplit_eq_none_iff rest).mp hr⟩
        · simp [lastDashSplit, hr, hc] at h
  · rintro ⟨rfl, hb⟩
    induction a with
    | nil =>
      have : lastDashSplit b = none := (lastDashSplit_eq_none_iff b).mpr hb
      simp [lastDashSplit, this]
    | cons x a' ih => simp [lastDashSplit, ih]

/-! ### The line loop -/

theorem runLines_append (xs : List String) (hxs : "" ∉ xs) (st : St) (ys : List String) :
    runLines st (xs ++ ys) =
      match runLines st xs with
      | .error e => .error e
      | .ok st' => runLines st' ys := by
  induction xs generalizing st with
  | nil => simp [runLines]
  | cons l ls ih =>
    have hl : l ≠ "" := fun h => hxs (h ▸ List.mem_cons_self l ls)
    have hls : "" ∉ ls := fun h => hxs (List.mem_cons_of_mem l h)
    cases hp : processLine st l with
    | error e => simp [runLines, hl, hp]
    | ok st' => simp [runLines, hl, hp, ih hls]

/-! ### The finalization loop -/

/-- The amount the loop has subtracted from `count_any` after visiting
the keys `ks`, reading values in `d`. -/
def subSum (ks : List String) (d : Dict) : Int :=
  (ks.map fun k => if k = "Any" then 0 else Counter.get d k).sum

theorem subSum_cons_expand (k : String) (ks : List String) (d : Dict) :
    subSum (k :: ks) d = (if k = "Any" then 0 else Counter.get d k) + subSum ks d := by
  simp [subSum]

theorem subSum_set_any (ks : List String) (d : Dict) (v : Int) :
    subSum ks (Counter.set d "Any" v) = subSum ks d := by
  induction ks with
  | nil => rfl
  | cons k ks ih =>
    rw [subSum_cons_expand, subSum_cons_expand, ih]
    by_cases hk : k = "Any"
    · simp [hk]
    · rw [Counter.get_set_ne d "Any" k v hk]

theorem countAnyStep_subSum (c : Int) (d : Dict) (k : String) (ks : List String) :
    countAnyStep c d k - subSum ks d = c - subSum (k :: ks) d := by
  rw [subSum_cons_expand]
  by_cases hk : k = "Any"
  · simp [countAnyStep, hk]
  · have h1 : countAnyStep c d k = c - Counter.get d k := by simp [countAnyStep, hk]
    rw [h1, if_neg hk]
    ring

theorem finalizeGo_not_memb (d : Dict) (hm : Counter.memb d "Any" = false)
    (ks : List String) (c : Int) (n : Nat) :
    finalizeGo (c, d, n) ks = (c - subSum ks d, d, n) := by
  induction ks generalizing c with
  | nil => simp [finalizeGo, subSum]
  | cons k ks ih =>
    simp only [finalizeGo, hm, Bool.false_eq_true, if_false, ih, countAnyStep_subSum]

theorem finalizeGo_memb (ks : List String) (d : Dict)
    (hm : Counter.memb d "Any" = true) (c : Int) (n : Nat) (hks : ks ≠ []) :
    finalizeGo (c, d, n) ks =
      (c - subSum ks d, Counter.set d "Any" (c - subSum ks d), n + ks.length) := by
  induction ks generalizing c d n with
  | nil => exact absurd rfl hks
  | cons k ks ih =>
    simp only [finalizeGo, hm, if_true]
    cases ks with
    | nil =>
      simp only [finalizeGo, List.length_cons, List.length_nil]
      rw [show countAnyStep c d k = c - subSum [k] d from by
        have := countAnyStep_subSum c d k []
        simpa [subSum] using this]
    | cons k2 ks' =>
      rw [ih (Counter.set d "Any" (countAnyStep c d k))
        (Counter.memb_set_self d "Any" (countAnyStep c d k)) (countAnyStep c d k)
        (n + 1) (by simp)]
      rw [subSum_set_any, Counter.set_set, countAnyStep_subSum]
      simp only [List.length_cons]
      rw [show n + 1 + (ks'.length + 1) = n + (ks'.length + 1 + 1) from by omega]

theorem finalize_eq_of_not_memb (d : Dict) (hm : Counter.memb d "Any" = false) :
    finalize d = d := by
  simp [finalize, finalizeGo_not_memb d hm]

theorem finalizeAssigns_eq_zero (d : Dict) (hm : Counter.memb d "Any" = false) :
    finalizeAssigns d = 0 := by
  simp [finalizeAssigns, finalizeGo_not_memb d hm]

theorem keys_ne_nil_of_memb (d : Dict) (hm : Counter.memb d "Any" = true) :
    d.map Prod.fst ≠ [] := by
  intro h
  rw [(Counter.memb_iff_mem_keys d "Any"), h] at hm
  simp at hm

theorem finalize_eq_of_memb (d : Dict) (hm : Counter.memb d "Any" = true) :
    finalize d =
      Counter.set d "Any" (MAX_VENDOR_DEVICE - subSum (d.map Prod.fst) d) := by
  simp [finalize, finalizeGo_memb (d.map Prod.fst) d hm MAX_VENDOR_DEVICE 0
    (keys_ne_nil_of_memb d hm)]

theorem finalizeAssigns_eq_length (d : Dict) (hm : Counter.memb d "Any" = true) :
    finalizeAssigns d = (d.map Prod.fst).length := by
  simp [finalizeAssigns, finalizeGo_memb (d.map Prod.fst) d hm MAX_VENDOR_DEVICE 0
    (keys_ne_nil_of_memb d hm)]

theorem Counter.get_cons_self (k₀ : String) (v₀ : Int) (d : Dict) :
    Counter.get ((k₀, v₀) :: d) k₀ = v₀ := by
  simp [Counter.get]

theorem sumNonAny_cons (k₀ : String) (v₀ : Int) (d : Dict) :
    sumNonAny ((k₀, v₀) :: d) = (if k₀ = "Any" then 0 else v₀) + sumNonAny d := by
  by_cases hk : k₀ = "Any" <;> simp [sumNonAny, hk]

theorem subSum_cons_notmem (ks : List String) (k₀ : String) (v₀ : Int) (d : Dict)
    (h : k₀ ∉ ks) : subSum ks ((k₀, v₀) :: d) = subSum ks d := by
  induction ks with
  | nil => rfl
  | cons k ks ih =>
    have hk : k ≠ k₀ := fun he => h (he ▸ List.mem_cons_self k ks)
    have hks : k₀ ∉ ks := fun he => h (List.mem_cons_of_mem k he)
    rw [subSum_cons_expand, subSum_cons_expand, ih hks,
      Counter.get_cons_ne k₀ k v₀ d hk]

theorem subSum_keys (d : Dict) (h : (d.map Prod.fst).Nodup) :
    subSum (d.map Prod.fst) d = sumNonAny d := by
  induction d with
  | nil => rfl
  | cons p rest ih =>
    obtain ⟨k₀, v₀⟩ := p
    simp only [List.map_cons, List.nodup_cons] at h
    obtain ⟨hk₀, hrest⟩ := h
    rw [List.map_cons, subSum_cons_expand, Counter.get_cons_self,
      subSum_cons_notmem (rest.map Prod.fst) k₀ v₀ rest hk₀, ih hrest,
      sumNonAny_cons]

/-! ### The per-case tally loop -/

theorem tallyPairsGo_pairsOf (ps : List (String × String)) (caseD testD : Dict) :
    tallyPairsGo caseD testD (pairsOf ps) = some (tallyGo caseD testD ps) := by
  induction ps generalizing caseD testD with
  | nil => rfl
  | cons p ps ih =>
    obtain ⟨r, v⟩ := p
    simp [pairsOf, tallyPairsGo, tallyGo] at ih ⊢
    exact ih _ _

theorem tallyPairsGo_none_of_bad (tuples : List (List String)) (caseD testD : Dict)
    (h : ∃ t ∈ tuples, t.length ≠ 2) :
    tallyPairsGo caseD testD tuples = none := by
  induction tuples generalizing caseD testD with
  | nil => simp at h
  | cons t rest ih =>
    obtain ⟨t', ht', hlen⟩ := h
    rcases List.mem_cons.mp ht' with h1 | h1
    · subst h1
      match t', hlen with
      | [], _ => rfl
      | [a], _ => rfl
      | [a, b], h2 => exact absurd rfl h2
      | a :: b :: c :: t'', _ => rfl
    · cases t with
      | nil => rfl
      | cons a t1 =>
        cases t1 with
        | nil => rfl
        | cons b t2 =>
          cases t2 with
          | nil => exact ih _ _ ⟨t', h1, hlen⟩
          | cons c t3 => rfl

theorem countVendor_cons (r u : String) (ps : List (String × String)) (v : String) :
    countVendor ((r, u) :: ps) v = (if u = v then 1 else 0) + countVendor ps v := by
  by_cases h : u = v
  · simp [countVendor, h]
    omega
  · simp [countVendor, h]

theorem tallyGo_get (ps : List (String × String)) (caseD testD : Dict) (v : String) :
    Counter.get (tallyGo caseD testD ps).2 v =
      if countVendor ps v = 0 then Counter.get testD v
      else max (Counter.get testD v) (Counter.get caseD v + countVendor ps v) := by
  induction ps generalizing caseD testD with
  | nil => simp [tallyGo, countVendor]
  | cons p ps ih =>
    obtain ⟨r, u⟩ := p
    simp only [tallyGo]
    rw [ih, countVendor_cons]
    by_cases hu : u = v
    · subst hu
      rw [Counter.get_set_self caseD u, Counter.get_set_self testD u]
      simp only [if_pos rfl, if_true]
      by_cases h0 : countVendor ps u = 0
      · simp [h0]
      · have h1 : 1 + countVendor ps u ≠ 0 := by omega
        rw [if_neg h0, if_neg h1, max_assoc]
        congr 1
        rw [max_eq_right (by
          have : (0 : Int) ≤ (countVendor ps u : Int) := Int.ofNat_nonneg _
          omega)]
        push_cast
        ring
    · rw [Counter.get_set_ne caseD u v _ (Ne.symm hu),
        Counter.get_set_ne testD u v _ (Ne.symm hu)]
      simp [hu]

theorem tallyGo_testD_mono (ps : List (String × String)) (caseD testD : Dict)
    (v : String) : Counter.get testD v ≤ Counter.get (tallyGo caseD testD ps).2 v := by
  rw [tallyGo_get]
  by_cases h0 : countVendor ps v = 0
  · simp [h0]
  · simp [h0, le_max_left]

theorem foldCases_get_go (cases : List (List (String × String))) (t : Dict)
    (v : String) (h : 0 ≤ Counter.get t v) :
    Counter.get (cases.foldl (fun t ps => (tallyGo [] t ps).2) t) v =
      cases.foldl (fun a ps => max a (countVendor ps v : Int)) (Counter.get t v) := by
  induction cases generalizing t with
  | nil => rfl
  | cons ps cs ih =>
    simp only [List.foldl_cons]
    have hstep : Counter.get (tallyGo [] t ps).2 v
        = max (Counter.get t v) (countVendor ps v : Int) := by
      rw [tallyGo_get]
      by_cases h0 : countVendor ps v = 0
      · rw [if_pos h0, h0]
        push_cast
        rw [max_eq_left h]
      · rw [if_neg h0]
        simp [Counter.get]
    rw [ih _ (by rw [hstep]; exact le_trans h (le_max_left _ _)), hstep]

/-! ### Claims -/

/-- C8: on the input lines `5.1.1-Leader:ARM,Router_1:ARM` and
`5.2.1-Leader:OpenThread,REED_1:Kirale,MED_1:SiLabs` with selection
"all", the per-case vendor tallies are `{ARM: 2}` and
`{OpenThread: 1, Kirale: 1, SiLabs: 1}` (visible as the `caseVendors`
log entries) and the final test-bed tally is
`{ARM: 2, OpenThread: 1, Kirale: 1, SiLabs: 1}`. -/
theorem c8_end_to_end :
    device_calculate
        ["5.1.1-Leader:ARM,Router_1:ARM",
         "5.2.1-Leader:OpenThread,REED_1:Kirale,MED_1:SiLabs"] ["all"] =
      .ok ([.caseHeader "5.1.1",
            .rolePairs [["Leader", "ARM"], ["Router_1", "ARM"]],
            .caseVendors [("ARM", 2)],
            .caseHeader "5.2.1",
            .rolePairs [["Leader", "OpenThread"], ["REED_1", "Kirale"],
              ["MED_1", "SiLabs"]],
            .caseVendors [("OpenThread", 1), ("Kirale", 1), ("SiLabs", 1)],
            .testbedResult [("ARM", 2), ("OpenThread", 1), ("Kirale", 1),
              ("SiLabs", 1)]],
          [("ARM", 2), ("OpenThread", 1), ("Kirale", 1), ("SiLabs", 1)]) := by
  rfl

/-- C1 counterexample: the claim says the line is split at the FIRST `-`.
The greedy regex `(.*)-(.*)` splits at the LAST `-`: on the line
`1-2-x:V` with selection `["1"]` the code extracts case id `1-2`, not
`1`, so the line is skipped and `1` is reported not found — under the
claimed first-`-` split the case id would have been `1` and the line
would have been processed. -/
theorem c1_counterexample :
    device_calculate ["1-2-x:V"] ["1"] = .ok ([.notFound ["1"], .testbedResult []], [])
    ∧ lastDashSplit "1-2-x:V".toList = some ("1-2".toList, "x:V".toList)
    ∧ firstDashSplit "1-2-x:V".toList = some ("1".toList, "2-x:V".toList)
    ∧ firstDashSplit "1-2-x:V".toList ≠ lastDashSplit "1-2-x:V".toList := by
  exact ⟨rfl, rfl, rfl, by decide⟩

/-- C1 amended: a non-comment line containing at least one `-` is
decomposed into `(case_id, role_vendor_str)` by splitting at the LAST
`-` of the line (the greedy match `(.*)-(.*)`): `lastDashSplit` returns
`some (a, b)` exactly when the line is `a ++ '-' :: b` with no `-` in
`b`. -/
theorem c1_last_dash (cs a b : List Char) :
    lastDashSplit cs = some (a, b) ↔ cs = a ++ '-' :: b ∧ '-' ∉ b :=
  lastDashSplit_eq_some_iff cs a b

/-- C1 amended, witness at a concrete input. -/
theorem c1_last_dash_witness :
    lastDashSplit "a-b-c".toList = some ("a-b".toList, "c".toList) :=
  (c1_last_dash "a-b-c".toList "a-b".toList "c".toList).mpr (by decide)

/-- C2 counterexample: a stream of one comment line and one blank line
(`"\n"`, which strips to the empty line) with selection "all" does NOT
complete without error: the blank line fails the `(.*)-(.*)` match, the
`.group(1)` call raises, and the run aborts with an
`Unrecognized format` log. -/
theorem c2_counterexample :
    device_calculate ["# a comment", "\n"] ["all"] = .error [.unrecognized ""] := by
  rfl

/-- C2 amended: a stream consisting solely of comment lines, with
selection "all", completes without error, reports no cases and yields an
empty final tally; blank lines, however, are NOT skipped — they abort
the run (see the counterexample). -/
theorem c2_comments_ok (lines : List String)
    (h : ∀ l ∈ lines, isComment (pyStrip l) = true) :
    device_calculate lines ["all"] = .ok ([.testbedResult []], []) := by
  have hrun : ∀ (st : St), runLines st lines = .ok st := by
    induction lines with
    | nil => intro st; rfl
    | cons l ls ih =>
      intro st
      have hl : isComment (pyStrip l) = true := h l (List.mem_cons_self l ls)
      have hne : l ≠ "" := by
        intro he
        rw [he] at hl
        exact absurd hl (by decide)
      have hp : processLine st l = .ok st := by
        simp [processLine, hl]
      simp only [runLines, if_neg hne, hp]
      exact ih (fun l' hl' => h l' (List.mem_cons_of_mem l hl')) st
  simp [device_calculate, hrun, initSt, finalize, finalizeGo]

/-- C2 amended, witness at a concrete comment-only stream. -/
theorem c2_comments_ok_witness :
    device_calculate ["# a", "  # b"] ["all"] = .ok ([.testbedResult []], []) :=
  c2_comments_ok ["# a", "  # b"] (by decide)

/-- C3 counterexample: on the final tally `{X: 5, Any: 3}` the
finalization loop assigns to `'Any'` twice (once per key), not exactly
once; the value it ends at is nevertheless `32 - 5 = 27`. -/
theorem c3_counterexample :
    finalizeAssigns [("X", 5), ("Any", 3)] = 2
    ∧ Counter.get (finalize [("X", 5), ("Any", 3)]) "Any" = 27
    ∧ (2 : Nat) ≠ 1 := by
  exact ⟨rfl, rfl, by decide⟩

/-- C3 amended: the finalization loop reassigns `'Any'` on EVERY
iteration (once per key of the tally), not exactly once; nevertheless,
when `'Any'` is a key its final value equals
`MAX_VENDOR_DEVICE - (sum of all other vendors' values)` — the fully
reduced remainder, negative values passed through unchanged — when
`'Any'` is not a key the tally is left untouched (no assignment at
all), and the values of all vendors other than `'Any'` are never
modified. -/
theorem c3_finalize_any (d : Dict) (h : (d.map Prod.fst).Nodup) :
    (Counter.memb d "Any" = true →
      Counter.get (finalize d) "Any" = MAX_VENDOR_DEVICE - sumNonAny d
      ∧ finalizeAssigns d = (d.map Prod.fst).length)
    ∧ (Counter.memb d "Any" = false → finalize d = d ∧ finalizeAssigns d = 0)
    ∧ (∀ k, k ≠ "Any" → Counter.get (finalize d) k = Counter.get d k) := by
  refine ⟨fun hm => ⟨?_, finalizeAssigns_eq_length d hm⟩,
    fun hm => ⟨finalize_eq_of_not_memb d hm, finalizeAssigns_eq_zero d hm⟩,
    fun k hk => ?_⟩
  · rw [finalize_eq_of_memb d hm, Counter.get_set_self, subSum_keys d h]
  · cases hm : Counter.memb d "Any" with
    | true => rw [finalize_eq_of_memb d hm, Counter.get_set_ne _ _ _ _ hk]
    | false => rw [finalize_eq_of_not_memb d hm]

/-- C3 amended, witness: an over-subscribed tally `{B: 40, Any: 0}` gets
the negative value `32 - 40 = -8` passed through. -/
theorem c3_finalize_any_witness :
    Counter.get (finalize [("B", 40), ("Any", 0)]) "Any"
      = MAX_VENDOR_DEVICE - sumNonAny [("B", 40), ("Any", 0)] :=
  (((c3_finalize_any [("B", 40), ("Any", 0)] (by decide)).1 (by decide)).1)

/-- C4: when the first offending line of the stream strips to something
that is neither a comment nor contains a `-` (this includes a stripped
blank line), the run raises a fatal error whose log identifies the
offending (stripped) line; the result is an error that does not depend
on the lines after the offending one, so no line after it is parsed and
no tally from any later line appears in any result. -/
theorem c4_malformed_aborts (pre post caseList : List String) (bad : String) (st : St)
    (hpre0 : "" ∉ pre)
    (hpre : runLines (initSt caseList) pre = .ok st)
    (hbad : bad ≠ "")
    (hcom : isComment (pyStrip bad) = false)
    (hdash : '-' ∉ (pyStrip bad).toList) :
    device_calculate (pre ++ bad :: post) caseList =
      .error (st.log ++ [.unrecognized (pyStrip bad)]) := by
  have hnone : lastDashSplit (pyStrip bad).data = none :=
    (lastDashSplit_eq_none_iff (pyStrip bad).toList).mpr hdash
  have hrun : runLines (initSt caseList) (pre ++ bad :: post)
      = .error (st.log ++ [.unrecognized (pyStrip bad)]) := by
    rw [runLines_append pre hpre0 (initSt caseList) (bad :: post), hpre]
    simp [runLines, hbad, processLine, hcom, hnone]
  simp [device_calculate, hrun]

/-- C4 witness: a well-formed record, then `garbage`, then another
record; the run aborts identifying `garbage` and the third line leaves
no trace. -/
theorem c4_malformed_aborts_witness :
    device_calculate (["5.1.1-Leader:ARM"] ++ "garbage" :: ["5.2.1-Leader:ARM"]) ["all"] =
      .error ([.caseHeader "5.1.1", .rolePairs [["Leader", "ARM"]],
          .caseVendors [("ARM", 1)]] ++ [.unrecognized "garbage"]) :=
  c4_malformed_aborts ["5.1.1-Leader:ARM"] ["5.2.1-Leader:ARM"] ["all"] "garbage"
    ⟨["all"], [("ARM", 1)],
      [.caseHeader "5.1.1", .rolePairs [["Leader", "ARM"]], .caseVendors [("ARM", 1)]]⟩
    (by decide) rfl (by decide) (by decide) (by decide)

/-- C5: the inner loop on well-formed two-element tuples is `tallyGo`,
and the final (pre-finalization) test-bed tally value for a vendor `v`
equals the maximum over all processed case records of that record's
count of pairs with vendor `v`, defaulting to 0; in particular a case
with tally `{V: 2}` folded with a case with tally `{V: 5}` yields 5
for `V`. -/
theorem c5_testbed_max :
    (∀ (caseD testD : Dict) (ps : List (String × String)),
      tallyPairsGo caseD testD (pairsOf ps) = some (tallyGo caseD testD ps))
    ∧ (∀ (cases : List (List (String × String))) (v : String),
        Counter.get (foldCases cases) v =
          cases.foldl (fun a ps => max a (countVendor ps v : Int)) 0)
    ∧ Counter.get (foldCases [[("r1", "V"), ("r2", "V")],
        [("r1", "V"), ("r2", "V"), ("r3", "V"), ("r4", "V"), ("r5", "V")]]) "V" = 5 := by
  refine ⟨fun caseD testD ps => tallyPairsGo_pairsOf ps caseD testD,
    fun cases v => ?_, by rfl⟩
  have h := foldCases_get_go cases [] v (by simp [Counter.get])
  simpa [foldCases, Counter.get] using h

/-- C6 counterexample: on a selected case whose `role:vendor` token
splits into three parts, the run aborts — but the parse failure is NOT
reported: the `ValueError` is raised outside the `try`, so the error
log carries no `Unrecognized format` entry naming the offending line. -/
theorem c6_counterexample :
    device_calculate ["5.1.1-Leader:ARM:extra"] ["all"]
      = .error [.caseHeader "5.1.1", .rolePairs [["Leader", "ARM", "extra"]]]
    ∧ hasUnrecognized [.caseHeader "5.1.1", .rolePairs [["Leader", "ARM", "extra"]]]
      = false := by
  exact ⟨rfl, rfl⟩

/-- C6 amended: a selected case record containing a token that does not
split on `:` into exactly two parts makes the run abort with a fatal
error, and no later line contributes to any result (the error value
does not depend on `post`); however the parse failure is not reported —
the unpack error escapes outside the `try`, so the log gains no
`Unrecognized format` entry (only the already-emitted case header and
role-pair list). -/
theorem c6_bad_token_aborts (pre post caseList : List String) (bad : String) (st : St)
    (g1 g2 : List Char)
    (hpre0 : "" ∉ pre)
    (hpre : runLines (initSt caseList) pre = .ok st)
    (hbad : bad ≠ "")
    (hcom : isComment (pyStrip bad) = false)
    (hsplit : lastDashSplit (pyStrip bad).toList = some (g1, g2))
    (hsel : "all" ∈ st.caseList ∨ String.mk g1 ∈ st.caseList)
    (htok : ∃ t ∈ (splitOnChar ',' g2).map (fun t => (splitOnChar ':' t).map String.mk),
        t.length ≠ 2) :
    device_calculate (pre ++ bad :: post) caseList =
      .error ((st.log ++ [.caseHeader (String.mk g1)])
        ++ [.rolePairs ((splitOnChar ',' g2).map fun t =>
              (splitOnChar ':' t).map String.mk)])
    ∧ hasUnrecognized ((st.log ++ [.caseHeader (String.mk g1)])
        ++ [.rolePairs ((splitOnChar ',' g2).map fun t =>
              (splitOnChar ':' t).map String.mk)])
      = hasUnrecognized st.log := by
  constructor
  · have hnone := tallyPairsGo_none_of_bad
      ((splitOnChar ',' g2).map fun t => (splitOnChar ':' t).map String.mk)
      [] st.testbed htok
    have hsplit' : lastDashSplit (pyStrip bad).data = some (g1, g2) := hsplit
    have hrun : runLines (initSt caseList) (pre ++ bad :: post)
        = .error ((st.log ++ [.caseHeader (String.mk g1)])
          ++ [.rolePairs ((splitOnChar ',' g2).map fun t =>
                (splitOnChar ':' t).map String.mk)]) := by
      rw [runLines_append pre hpre0 (initSt caseList) (bad :: post), hpre]
      simp [runLines, hbad, processLine, hcom, hsplit', hsel, hnone]
    simp [device_calculate, hrun]
  · simp [hasUnrecognized]

/-- C6 amended, witness: the line `7.1.1-Leader` has the single-part
token `Leader`. -/
theorem c6_bad_token_aborts_witness :
    device_calculate (([] : List String) ++ "7.1.1-Leader" :: []) ["all"] =
      .error (((initSt ["all"]).log ++ [.caseHeader (String.mk "7.1.1".toList)])
        ++ [.rolePairs ((splitOnChar ',' "Leader".toList).map fun t =>
              (splitOnChar ':' t).map String.mk)]) :=
  (c6_bad_token_aborts [] [] ["all"] "7.1.1-Leader" (initSt ["all"])
    "7.1.1".toList "Leader".toList (by decide) rfl (by decide) (by decide) rfl
    (Or.inl (by decide)) (by decide)).1

/-- C7: selection identifiers that matched no case record are
non-fatal: when the line loop finishes successfully with a non-empty
explicit leftover selection, the run still completes, the leftover
identifiers are reported as a `notFound` list after all per-case
output, and the final tally is the finalized tally of the processed
cases, unaffected by the unmatched identifiers. -/
theorem c7_unmatched_nonfatal (lines caseList : List String) (st : St)
    (hrun : runLines (initSt caseList) lines = .ok st)
    (hne : st.caseList ≠ [])
    (hall : "all" ∉ st.caseList) :
    device_calculate lines caseList =
      .ok ((st.log ++ [.notFound st.caseList]) ++ [.testbedResult (finalize st.testbed)],
        finalize st.testbed) := by
  simp [device_calculate, hrun, hne, hall]

/-- C7 witness: selecting only `9.9.9` against a file containing only
case `5.1.1` yields an empty final tally and the unmatched list
`["9.9.9"]`. -/
theorem c7_unmatched_nonfatal_witness :
    device_calculate ["5.1.1-Leader:ARM,Router_1:ARM"] ["9.9.9"] =
      .ok ((([] : List LogEntry) ++ [.notFound ["9.9.9"]])
        ++ [.testbedResult (finalize [])], finalize []) :=
  c7_unmatched_nonfatal ["5.1.1-Leader:ARM,Router_1:ARM"] ["9.9.9"]
    ⟨["9.9.9"], [], []⟩ rfl (by decide) (by decide)

/-- C9: folding one more case record into the test-bed tally never
decreases any vendor's value: whenever the inner loop succeeds, the
resulting test-bed tally dominates the incoming one pointwise. -/
theorem c9_monotone (tuples : List (List String)) (caseD testD : Dict)
    (res : Dict × Dict) (v : String)
    (h : tallyPairsGo caseD testD tuples = some res) :
    Counter.get testD v ≤ Counter.get res.2 v := by
  induction tuples generalizing caseD testD with
  | nil =>
    simp only [tallyPairsGo, Option.some.injEq] at h
    subst h
    exact le_refl _
  | cons t rest ih =>
    cases t with
    | nil => simp [tallyPairsGo] at h
    | cons a t1 =>
      cases t1 with
      | nil => simp [tallyPairsGo] at h
      | cons b t2 =>
        cases t2 with
        | cons c t3 => simp [tallyPairsGo] at h
        | nil =>
          simp only [tallyPairsGo] at h
          refine le_trans ?_ (ih _ _ h)
          by_cases hb : b = v
          · subst hb
            rw [Counter.get_set_self testD b]
            exact le_max_left _ _
          · rw [Counter.get_set_ne testD b v _ (Ne.symm hb)]

/-- C9 witness at a concrete input. -/
theorem c9_monotone_witness :
    Counter.get [("ARM", 3)] "ARM"
      ≤ Counter.get ((([("V", 1)], [("ARM", 3), ("V", 1)]) : Dict × Dict)).2 "ARM" :=
  c9_monotone [["r", "V"]] [] [("ARM", 3)] ([("V", 1)], [("ARM", 3), ("V", 1)]) "ARM" rfl

/-- C10: under an explicit selection, a case record whose identifier is
not (or no longer) in the selection is skipped with no state change at
all, and processing a record whose identifier is in the selection
removes the identifier from the selection (and logs the case header);
hence when the identifier occurred once in the selection, any later
record with the same identifier is skipped. -/
theorem c10_first_match_only (st : St) (l : String) (cid : String)
    (hcom : isComment (pyStrip l) = false)
    (hid : caseIdOf l = some cid)
    (hall : "all" ∉ st.caseList) :
    (cid ∉ st.caseList → processLine st l = .ok st)
    ∧ (∀ st', processLine st l = .ok st' → cid ∈ st.caseList →
        st'.caseList = st.caseList.erase cid
        ∧ (st.caseList.count cid = 1 → cid ∉ st'.caseList)
        ∧ LogEntry.caseHeader cid ∈ st'.log) := by
  cases hm : lastDashSplit (pyStrip l).toList with
  | none =>
    rw [caseIdOf, hm] at hid
    simp at hid
  | some p =>
    obtain ⟨g1, g2⟩ := p
    rw [caseIdOf, hm] at hid
    simp only [Option.map_some', Option.some.injEq] at hid
    subst hid
    have hm' : lastDashSplit (pyStrip l).data = some (g1, g2) := hm
    constructor
    · intro hnot
      simp [processLine, hcom, hm', hall, hnot]
    · intro st' hok hmem
      rw [processLine] at hok
      simp only [hcom, Bool.false_eq_true, if_false, hm, hm'] at hok
      rw [if_pos (Or.inr hmem)] at hok
      cases ht : tallyPairsGo [] st.testbed
          ((splitOnChar ',' g2).map fun t => (splitOnChar ':' t).map String.mk) with
      | none => rw [ht] at hok; cases hok
      | some pr =>
        rw [ht] at hok
        obtain ⟨caseD, testD⟩ := pr
        simp only [Except.ok.injEq] at hok
        subst hok
        refine ⟨?_, fun hcount => ?_, ?_⟩
        · show (if "all" ∈ st.caseList then st.caseList
              else st.caseList.erase (String.mk g1)) = st.caseList.erase (String.mk g1)
          rw [if_neg hall]
        · show String.mk g1 ∉ (if "all" ∈ st.caseList then st.caseList
              else st.caseList.erase (String.mk g1))
          rw [if_neg hall]
          intro hin
          have h0 : (st.caseList.erase (String.mk g1)).count (String.mk g1) = 0 := by
            rw [List.count_erase_self, hcount]
          rw [List.count_eq_zero] at h0
          exact h0 hin
        · simp

/-- C10 witness: state with selection `["5.1.1"]`, line
`5.1.1-Leader:ARM`; after processing, `5.1.1` is gone from the
selection. -/
theorem c10_first_match_only_witness :
    ((⟨[], [("ARM", 1)], [.caseHeader "5.1.1", .rolePairs [["Leader", "ARM"]],
        .caseVendors [("ARM", 1)]]⟩ : St).caseList = ["5.1.1"].erase "5.1.1")
    ∧ ((["5.1.1"] : List String).count "5.1.1" = 1 →
        "5.1.1" ∉ (⟨[], [("ARM", 1)], [.caseHeader "5.1.1",
          .rolePairs [["Leader", "ARM"]], .caseVendors [("ARM", 1)]]⟩ : St).caseList)
    ∧ LogEntry.caseHeader "5.1.1" ∈ (⟨[], [("ARM", 1)], [.caseHeader "5.1.1",
        .rolePairs [["Leader", "ARM"]], .caseVendors [("ARM", 1)]]⟩ : St).log :=
  (c10_first_match_only ⟨["5.1.1"], [], []⟩ "5.1.1-Leader:ARM" "5.1.1"
    (by decide) rfl (by decide)).2
    ⟨[], [("ARM", 1)], [.caseHeader "5.1.1", .rolePairs [["Leader", "ARM"]],
      .caseVendors [("ARM", 1)]]⟩ rfl (by decide)

end ParseTopofile
